import Mathlib

/-!
Shallow embedding of the streaming text-to-speech system
(`inference_server.py`, `inference_client_webrtc.py`, `llasa_model.py`).

Bytes are modelled as `Nat` values `< 256`; int16 samples as `Int` values in
`[-32768, 32767]`.  The base64 functions model Python's `base64.b64encode` /
`base64.b64decode` (standard alphabet, `=` padding).
-/

/-- The standard base64 alphabet used by Python's `base64.b64encode`. -/
def b64Alphabet : List Char :=
  ['A', 'B', 'C', 'D', 'E', 'F', 'G', 'H', 'I', 'J', 'K', 'L', 'M',
   'N', 'O', 'P', 'Q', 'R', 'S', 'T', 'U', 'V', 'W', 'X', 'Y', 'Z',
   'a', 'b', 'c', 'd', 'e', 'f', 'g', 'h', 'i', 'j', 'k', 'l', 'm',
   'n', 'o', 'p', 'q', 'r', 's', 't', 'u', 'v', 'w', 'x', 'y', 'z',
   '0', '1', '2', '3', '4', '5', '6', '7', '8', '9', '+', '/']

/-- Character for a 6-bit group (`'='` is returned for out-of-range input,
which never occurs for well-formed sextets). -/
def charOfSextet (n : Nat) : Char := b64Alphabet.getD n '='

/-- Inverse table lookup of the base64 alphabet, as `b64decode` performs it. -/
def sextetOfChar (c : Char) : Option Nat :=
  if 'A' ≤ c ∧ c ≤ 'Z' then some (c.toNat - 65)
  else if 'a' ≤ c ∧ c ≤ 'z' then some (c.toNat - 97 + 26)
  else if '0' ≤ c ∧ c ≤ '9' then some (c.toNat - 48 + 52)
  else if c = '+' then some 62
  else if c = '/' then some 63
  else none

/-- `base64.b64encode`: bytes are consumed three at a time, producing four
alphabet characters; a short final group is padded with `'='`. -/
def b64EncodeBytes : List Nat → List Char
  | [] => []
  | [a] =>
      [charOfSextet (a / 4), charOfSextet (a % 4 * 16), '=', '=']
  | [a, b] =>
      [charOfSextet (a / 4), charOfSextet (a % 4 * 16 + b / 16),
       charOfSextet (b % 16 * 4), '=']
  | a :: b :: c :: rest =>
      charOfSextet (a / 4) :: charOfSextet (a % 4 * 16 + b / 16) ::
      charOfSextet (b % 16 * 4 + c / 64) :: charOfSextet (c % 64) ::
      b64EncodeBytes rest

/-- `base64.b64decode` on well-formed input: four characters yield three
bytes, with `'='` padding closing the final group; malformed input (length
not a multiple of four, characters outside the alphabet, interior padding)
yields `none`, modelling the `binascii.Error` the library raises. -/
def b64DecodeChars : List Char → Option (List Nat)
  | [] => some []
  | c1 :: c2 :: c3 :: c4 :: rest =>
      (sextetOfChar c1).bind fun a =>
      (sextetOfChar c2).bind fun b =>
      if c3 = '=' ∧ c4 = '=' ∧ rest = [] then
        some [a * 4 + b / 16]
      else
        (sextetOfChar c3).bind fun c =>
        if c4 = '=' ∧ rest = [] then
          some [a * 4 + b / 16, b % 16 * 16 + c / 4]
        else
          (sextetOfChar c4).bind fun d =>
          (b64DecodeChars rest).bind fun tail =>
          some ((a * 4 + b / 16) :: (b % 16 * 16 + c / 4) ::
                (c % 4 * 64 + d) :: tail)
  | _ => none

theorem sextetOfChar_charOfSextet {n : Nat} (h : n < 64) :
    sextetOfChar (charOfSextet n) = some n := by
  have h64 : ∀ m : Fin 64, sextetOfChar (charOfSextet m.val) = some m.val := by decide
  exact h64 ⟨n, h⟩

theorem charOfSextet_ne_pad {n : Nat} (h : n < 64) : charOfSextet n ≠ '=' := by
  have h64 : ∀ m : Fin 64, charOfSextet m.val ≠ '=' := by decide
  exact h64 ⟨n, h⟩

theorem b64_roundtrip : ∀ (bs : List Nat), (∀ x ∈ bs, x < 256) →
    b64DecodeChars (b64EncodeBytes bs) = some bs
  | [], _ => rfl
  | [a], h => by
    have ha : a < 256 := h a (by simp)
    simp only [b64EncodeBytes, b64DecodeChars,
      sextetOfChar_charOfSextet (show a / 4 < 64 by omega),
      sextetOfChar_charOfSextet (show a % 4 * 16 < 64 by omega),
      Option.some_bind']
    simp
    omega
  | [a, b], h => by
    have ha : a < 256 := h a (by simp)
    have hb : b < 256 := h b (by simp)
    have h3 : charOfSextet (b % 16 * 4) ≠ '=' := charOfSextet_ne_pad (by omega)
    simp only [b64EncodeBytes, b64DecodeChars,
      sextetOfChar_charOfSextet (show a / 4 < 64 by omega),
      sextetOfChar_charOfSextet (show a % 4 * 16 + b / 16 < 64 by omega),
      sextetOfChar_charOfSextet (show b % 16 * 4 < 64 by omega),
      Option.some_bind']
    rw [if_neg (fun hp => h3 hp.1)]
    simp
    omega
  | a :: b :: c :: rest, h => by
    have ha : a < 256 := h a (by simp)
    have hb : b < 256 := h b (by simp)
    have hc : c < 256 := h c (by simp)
    have h3 : charOfSextet (b % 16 * 4 + c / 64) ≠ '=' := charOfSextet_ne_pad (by omega)
    have h4 : charOfSextet (c % 64) ≠ '=' := charOfSextet_ne_pad (by omega)
    have ih := b64_roundtrip rest (by
      intro x hx
      exact h x (by simp at hx ⊢; tauto))
    simp only [b64EncodeBytes, b64DecodeChars,
      sextetOfChar_charOfSextet (show a / 4 < 64 by omega),
      sextetOfChar_charOfSextet (show a % 4 * 16 + b / 16 < 64 by omega),
      sextetOfChar_charOfSextet (show b % 16 * 4 + c / 64 < 64 by omega),
      sextetOfChar_charOfSextet (show c % 64 < 64 by omega),
      ih, Option.some_bind']
    rw [if_neg (fun hp => h3 hp.1)]
    rw [if_neg (fun hp => h4 hp.1)]
    simp
    omega

/-- Little-endian two's-complement layout of one int16 sample, as
`numpy.ndarray.tobytes` produces for dtype `int16` on a little-endian host. -/
def int16ToLEBytes (v : Int) : List Nat :=
  [((v % 65536).toNat) % 256, ((v % 65536).toNat) / 256]

/-- `waveform_int16.tobytes()`: the samples' bytes, concatenated in order. -/
def samplesToBytes : List Int → List Nat
  | [] => []
  | v :: rest => int16ToLEBytes v ++ samplesToBytes rest

/-- `np.frombuffer(audio_bytes, dtype=np.int16)`: reinterpret the bytes as
little-endian signed 16-bit integers; an odd byte count raises in numpy,
modelled as `none`. -/
def bytesToInt16 : List Nat → Option (List Int)
  | [] => some []
  | b0 :: b1 :: rest =>
      (bytesToInt16 rest).bind fun tail =>
      some ((if b0 + 256 * b1 < 32768 then ((b0 + 256 * b1 : Nat) : Int)
             else ((b0 + 256 * b1 : Nat) : Int) - 65536) :: tail)
  | _ => none

/-- The fixed envelope tag the server prepends and the client tests for. -/
def audioTag : String := "data:audio/raw;base64,"

/-- `AudioFrameCodec.encode`, the server-side serialization in
`websocket_endpoint`: `f"data:audio/raw;base64,\x7bbase64.b64encode(waveform_int16.tobytes()).decode()\x7d"`.
The sample rate `r` is accepted but never serialized: the wire carries only
the payload bytes. -/
def encode (s : List Int) (r : Nat) : String :=
  audioTag ++ String.mk (b64EncodeBytes (samplesToBytes s))

/-- Characters after the first `','` of a character sequence. -/
def afterFirstComma : List Char → List Char
  | [] => []
  | c :: rest => if c = ',' then rest else afterFirstComma rest

/-- `message.split(",")[1]`: the segment strictly between the first comma and
the following one (base64 text never contains a comma, so on well-formed
frames this is the whole payload). -/
def b64Payload (cs : List Char) : List Char :=
  (afterFirstComma cs).takeWhile (fun c => c != ',')

/-- `AudioFrameCodec.decode`, the client side in `audio_listener`:
the `message.startswith("data:audio/raw;base64,")` guard, then
`base64.b64decode(message.split(",")[1])`, then
`np.frombuffer(..., dtype=np.int16)`.  `none` models a failed guard or a
raising decode. -/
def decode (msg : String) : Option (List Int) :=
  if audioTag.data.isPrefixOf msg.data then
    (b64DecodeChars (b64Payload msg.data)).bind bytesToInt16
  else none

theorem samplesToBytes_lt_256 : ∀ (s : List Int), ∀ x ∈ samplesToBytes s, x < 256
  | [], x, hx => by simp [samplesToBytes] at hx
  | v :: rest, x, hx => by
    simp only [samplesToBytes, int16ToLEBytes, List.cons_append, List.mem_cons,
      List.nil_append] at hx
    rcases hx with h1 | h2 | h3
    · have : (v % 65536).toNat % 256 < 256 := Nat.mod_lt _ (by omega)
      omega
    · have h65536 : (0 : Int) ≤ v % 65536 := Int.emod_nonneg v (by omega)
      have hlt : v % 65536 < 65536 := Int.emod_lt_of_pos v (by omega)
      have : (v % 65536).toNat < 65536 := by omega
      omega
    · exact samplesToBytes_lt_256 rest x h3

theorem bytesToInt16_samplesToBytes : ∀ (s : List Int),
    (∀ v ∈ s, -32768 ≤ v ∧ v ≤ 32767) →
    bytesToInt16 (samplesToBytes s) = some s
  | [], _ => rfl
  | v :: rest, h => by
    have hv : -32768 ≤ v ∧ v ≤ 32767 := h v (by simp)
    have ih := bytesToInt16_samplesToBytes rest (fun x hx => h x (by simp [hx]))
    have hnn : (0 : Int) ≤ v % 65536 := Int.emod_nonneg v (by omega)
    have hub : v % 65536 < 65536 := Int.emod_lt_of_pos v (by omega)
    simp only [samplesToBytes, int16ToLEBytes, List.cons_append, List.nil_append,
      List.append_eq, bytesToInt16, ih, Option.some_bind', Option.some.injEq,
      List.cons.injEq]
    split <;> exact ⟨by omega, trivial⟩

theorem charOfSextet_ne_comma (n : Nat) : charOfSextet n ≠ ',' := by
  by_cases h : n < 64
  · have h64 : ∀ m : Fin 64, charOfSextet m.val ≠ ',' := by decide
    exact h64 ⟨n, h⟩
  · have hlen : b64Alphabet.length = 64 := rfl
    unfold charOfSextet
    rw [List.getD_eq_getElem?_getD, List.getElem?_eq_none (by omega), Option.getD_none]
    decide

theorem b64Encode_ne_comma : ∀ (bs : List Nat), ∀ c ∈ b64EncodeBytes bs, c ≠ ','
  | [], c, hc => by simp [b64EncodeBytes] at hc
  | [a], c, hc => by
    simp only [b64EncodeBytes, List.mem_cons, List.not_mem_nil, or_false] at hc
    rcases hc with h | h | h | h <;> subst h
    · exact charOfSextet_ne_comma _
    · exact charOfSextet_ne_comma _
    · decide
    · decide
  | [a, b], c, hc => by
    simp only [b64EncodeBytes, List.mem_cons, List.not_mem_nil, or_false] at hc
    rcases hc with h | h | h | h <;> subst h
    · exact charOfSextet_ne_comma _
    · exact charOfSextet_ne_comma _
    · exact charOfSextet_ne_comma _
    · decide
  | a :: b :: d :: rest, c, hc => by
    simp only [b64EncodeBytes, List.mem_cons] at hc
    rcases hc with h | h | h | h | h
    · subst h; exact charOfSextet_ne_comma _
    · subst h; exact charOfSextet_ne_comma _
    · subst h; exact charOfSextet_ne_comma _
    · subst h; exact charOfSextet_ne_comma _
    · exact b64Encode_ne_comma rest c h

theorem afterFirstComma_tag (p : List Char) :
    afterFirstComma (audioTag.data ++ p) = p := by
  have htag : audioTag.data =
      ['d', 'a', 't', 'a', ':', 'a', 'u', 'd', 'i', 'o', '/', 'r', 'a', 'w',
       ';', 'b', 'a', 's', 'e', '6', '4', ','] := rfl
  rw [htag]
  simp [afterFirstComma]

theorem takeWhile_of_no_comma : ∀ (p : List Char), (∀ c ∈ p, c ≠ ',') →
    p.takeWhile (fun c => c != ',') = p
  | [], _ => rfl
  | c :: rest, h => by
    rw [List.takeWhile_cons, if_pos (by simpa using h c (by simp))]
    rw [takeWhile_of_no_comma rest (fun x hx => h x (by simp [hx]))]

theorem b64Payload_encode (s : List Int) :
    b64Payload (encode s 16000).data = b64EncodeBytes (samplesToBytes s) := by
  have hdata : (encode s 16000).data =
      audioTag.data ++ b64EncodeBytes (samplesToBytes s) := by
    simp [encode, String.data_append]
  rw [b64Payload, hdata, afterFirstComma_tag,
    takeWhile_of_no_comma _ (b64Encode_ne_comma (samplesToBytes s))]

/-- C1: for every sequence of int16 samples `s` and every sample rate `r`,
decoding the encoded wire string recovers exactly the samples
(`decode(encode(s, r)).samples == s`), and the sample rate is not carried
over the wire: the encoded string does not depend on `r` at all. -/
theorem decode_encode_roundtrip (s : List Int) (r r2 : Nat)
    (hs : ∀ v ∈ s, -32768 ≤ v ∧ v ≤ 32767) :
    decode (encode s r) = some s ∧ encode s r = encode s r2 := by
  refine ⟨?_, rfl⟩
  have hrate : encode s r = encode s 16000 := rfl
  rw [hrate, decode]
  have hdata : (encode s 16000).data =
      audioTag.data ++ b64EncodeBytes (samplesToBytes s) := by
    simp [encode, String.data_append]
  rw [if_pos ?hpre]
  case hpre =>
    rw [hdata]
    simp [List.isPrefixOf_iff_prefix, List.prefix_append]
  rw [b64Payload_encode, b64_roundtrip _ (samplesToBytes_lt_256 s),
    Option.some_bind', bytesToInt16_samplesToBytes s hs]

/-- Witness for C1 at the concrete samples `[100, -100, 200]` and rates
16000 and 8000. -/
theorem decode_encode_roundtrip_witness :
    decode (encode [100, -100, 200] 16000) = some [100, -100, 200] ∧
      encode [100, -100, 200] 16000 = encode [100, -100, 200] 8000 :=
  decode_encode_roundtrip [100, -100, 200] 16000 8000 (by decide)

/-! ## StreamingSession: the `websocket_endpoint` loop of `inference_server.py` -/

/-- A server-to-client wire frame: the tagged base64 audio envelope sent by
`send_text`, or the JSON error object sent by `send_json`. -/
inductive OutFrame
  | audio (payload : String)
  | errorFrame (msg : String)
  deriving DecidableEq

/-- One inbound client request as `websocket_endpoint` sees it:
`data.get("text")`; `none` models a JSON object without a usable `"text"`
field. -/
structure Request where
  text : Option String
  deriving DecidableEq

/-- The pair returned by `generate_audio`, with the floating-point waveform
already scaled to int16 samples: `(waveform * 32767).astype(np.int16)` is a
per-element map, so it preserves emptiness, and downstream the session only
uses the int16 view. -/
structure GenResult where
  samples : List Int
  sampleRate : Nat
  deriving DecidableEq

/-- Outcome of one `generate_audio` call as observed by the session: a
returned value, or an exception escaping the call (possible when obtaining
the model handle fails; see `generate_audio` below). -/
inductive GenOutcome
  | ok (r : GenResult)
  | exn (msg : String)
  deriving DecidableEq

/-- The fixed error message sent when no reference audio is set. -/
def noReferenceMsg : String := "Please upload a reference audio file first."

/-- Observable effects of one iteration of the `while True` receive loop. -/
structure StepResult where
  frames : List OutFrame
  calledGen : Bool
  genPath : Option String
  raised : Bool
  deriving DecidableEq

/-- One iteration of the receive loop in `websocket_endpoint`: check
`if not text: continue`, then `if current_reference_audio is None`, then call
`generate_audio`, then `if waveform.size == 0: continue`, else encode and
send.  `binding` is the global `current_reference_audio` read at request
time; `g` is the behaviour of the `generate_audio` call. -/
def sessionStep (binding : Option String) (req : Request) (g : GenOutcome) :
    StepResult :=
  match req.text with
  | none => ⟨[], false, none, false⟩
  | some t =>
    if t = "" then ⟨[], false, none, false⟩
    else
      match binding with
      | none => ⟨[OutFrame.errorFrame noReferenceMsg], false, none, false⟩
      | some path =>
        match g with
        | GenOutcome.exn _ => ⟨[], true, some path, true⟩
        | GenOutcome.ok res =>
          if res.samples = [] then ⟨[], true, some path, false⟩
          else ⟨[OutFrame.audio (encode res.samples res.sampleRate)], true,
                some path, false⟩

/-- One inbound event on a session: a received request (together with the
behaviour of the generation call and of any send it triggers), or
`receive_json` raising because the client closed or the transport faulted. -/
inductive InEvent
  | request (req : Request) (g : GenOutcome) (sendOk : Bool)
  | disconnect

/-- Observable outcome of a session run.  `terminated` is `false` when the
event list ran out with the session still blocked in `receive_json`. -/
structure SessionRun where
  sent : List OutFrame
  terminated : Bool
  closedHandle : Bool
  deriving DecidableEq

/-- The `websocket_endpoint` lifecycle:
`try: while True: ... except Exception: log  finally: await websocket.close()`.
Any exception — receive fault, send fault, or one escaping `generate_audio` —
leaves the loop and reaches the `finally` block, which closes the handle.
The global binding is held fixed over the run; its mutation by the upload
handler is covered by the upload theorems below. -/
def runSession (binding : Option String) : List InEvent → SessionRun
  | [] => ⟨[], false, false⟩
  | InEvent.disconnect :: _ => ⟨[], true, true⟩
  | InEvent.request req g sendOk :: rest =>
    let s := sessionStep binding req g
    if s.raised then ⟨[], true, true⟩
    else if s.frames ≠ [] ∧ sendOk = false then ⟨[], true, true⟩
    else
      let r := runSession binding rest
      ⟨s.frames ++ r.sent, r.terminated, r.closedHandle⟩

/-- C2: while no reference voice has ever been bound, a non-empty text
request yields exactly one `ErrorFrame` carrying
"Please upload a reference audio file first.", zero `AudioFrame`s, no
generation-gateway call, and the session returns to `Ready` with the
connection still open (the run does not terminate on this request). -/
theorem noBinding_single_errorFrame (req : Request) (t : String) (g : GenOutcome)
    (ht : req.text = some t) (hne : t ≠ "") :
    sessionStep none req g =
      ⟨[OutFrame.errorFrame noReferenceMsg], false, none, false⟩ ∧
    (runSession none [InEvent.request req g true]).terminated = false := by
  have hstep : sessionStep none req g =
      ⟨[OutFrame.errorFrame noReferenceMsg], false, none, false⟩ := by
    simp [sessionStep, ht, hne]
  refine ⟨hstep, ?_⟩
  simp [runSession, hstep]

/-- Witness for C2 at the request text "hello". -/
theorem noBinding_single_errorFrame_witness :
    sessionStep none ⟨some "hello"⟩ (GenOutcome.ok ⟨[], 16000⟩) =
      ⟨[OutFrame.errorFrame noReferenceMsg], false, none, false⟩ ∧
    (runSession none
        [InEvent.request ⟨some "hello"⟩ (GenOutcome.ok ⟨[], 16000⟩) true]).terminated
      = false :=
  noBinding_single_errorFrame ⟨some "hello"⟩ "hello" (GenOutcome.ok ⟨[], 16000⟩)
    rfl (by decide)

/-- C4: a request whose `"text"` field is missing or empty produces no frame
of any kind, never calls the generation gateway, and leaves the session
`Ready` (the run does not terminate on it), for any current binding. -/
theorem emptyText_silently_ignored (binding : Option String) (req : Request)
    (g : GenOutcome) (h : req.text = none ∨ req.text = some "") :
    sessionStep binding req g = ⟨[], false, none, false⟩ ∧
    (runSession binding [InEvent.request req g true]).terminated = false := by
  have hstep : sessionStep binding req g = ⟨[], false, none, false⟩ := by
    rcases h with h | h <;> simp [sessionStep, h]
  refine ⟨hstep, ?_⟩
  simp [runSession, hstep]

/-- Witness for C4 at a request with empty text and one with no text field. -/
theorem emptyText_silently_ignored_witness :
    sessionStep (some "prompts/a.wav") ⟨some ""⟩ (GenOutcome.ok ⟨[1], 16000⟩) =
      ⟨[], false, none, false⟩ ∧
    (runSession (some "prompts/a.wav")
        [InEvent.request ⟨some ""⟩ (GenOutcome.ok ⟨[1], 16000⟩) true]).terminated
      = false :=
  emptyText_silently_ignored (some "prompts/a.wav") ⟨some ""⟩
    (GenOutcome.ok ⟨[1], 16000⟩) (Or.inr rfl)

/-- C5: when the generation call returns an empty sample sequence, the
session emits nothing (no `AudioFrame`, no `ErrorFrame`), does not crash
(nothing is raised), and returns to `Ready` for the next request. -/
theorem emptyWaveform_emits_nothing (path : String) (req : Request) (t : String)
    (rate : Nat) (ht : req.text = some t) (hne : t ≠ "") :
    sessionStep (some path) req (GenOutcome.ok ⟨[], rate⟩) =
      ⟨[], true, some path, false⟩ ∧
    (runSession (some path)
        [InEvent.request req (GenOutcome.ok ⟨[], rate⟩) true]).terminated = false := by
  have hstep : sessionStep (some path) req (GenOutcome.ok ⟨[], rate⟩) =
      ⟨[], true, some path, false⟩ := by
    simp [sessionStep, ht, hne]
  refine ⟨hstep, ?_⟩
  simp [runSession, hstep]

/-- Witness for C5. -/
theorem emptyWaveform_emits_nothing_witness :
    sessionStep (some "prompts/a.wav") ⟨some "hi"⟩ (GenOutcome.ok ⟨[], 16000⟩) =
      ⟨[], true, some "prompts/a.wav", false⟩ ∧
    (runSession (some "prompts/a.wav")
        [InEvent.request ⟨some "hi"⟩ (GenOutcome.ok ⟨[], 16000⟩) true]).terminated
      = false :=
  emptyWaveform_emits_nothing "prompts/a.wav" ⟨some "hi"⟩ "hi" 16000 rfl (by decide)

/-- C6: a successful generation with a non-empty int16 sample sequence is
answered by exactly one whole outbound message, equal to the fixed tag
"data:audio/raw;base64," concatenated with the base64 encoding of the
samples serialized as little-endian 16-bit PCM bytes. -/
theorem audio_sent_as_tagged_base64 (path : String) (req : Request) (t : String)
    (res : GenResult) (ht : req.text = some t) (hne : t ≠ "")
    (hsamp : res.samples ≠ []) :
    sessionStep (some path) req (GenOutcome.ok res) =
      ⟨[OutFrame.audio ("data:audio/raw;base64," ++
          String.mk (b64EncodeBytes (samplesToBytes res.samples)))],
        true, some path, false⟩ := by
  simp [sessionStep, ht, hne, hsamp, encode, audioTag]

/-- Witness for C6 at the samples `[100, -100, 200]`. -/
theorem audio_sent_as_tagged_base64_witness :
    sessionStep (some "prompts/a.wav") ⟨some "hi"⟩
        (GenOutcome.ok ⟨[100, -100, 200], 16000⟩) =
      ⟨[OutFrame.audio ("data:audio/raw;base64," ++
          String.mk (b64EncodeBytes (samplesToBytes [100, -100, 200])))],
        true, some "prompts/a.wav", false⟩ :=
  audio_sent_as_tagged_base64 "prompts/a.wav" ⟨some "hi"⟩ "hi"
    ⟨[100, -100, 200], 16000⟩ rfl (by decide) (by decide)

/-- C7: whenever a session run terminates — inbound close, a send or receive
fault, or an exception raised during the generation step — the connection
handle has been closed by the `finally` block; a session never terminates
with the handle unreleased. -/
theorem session_terminated_implies_closed (binding : Option String) :
    ∀ (evts : List InEvent), (runSession binding evts).terminated = true →
      (runSession binding evts).closedHandle = true
  | [], h => by simp [runSession] at h
  | InEvent.disconnect :: _, _ => rfl
  | InEvent.request req g sendOk :: rest, h => by
    have ih := session_terminated_implies_closed binding rest
    by_cases h1 : (sessionStep binding req g).raised
    · simp [runSession, h1]
    · by_cases h2 : (sessionStep binding req g).frames ≠ [] ∧ sendOk = false
      · simp [runSession, h1, h2]
      · simp [runSession, h1, h2] at h ⊢
        exact ih h

/-- Witness for C7: a run that ends in a disconnect has closed its handle. -/
theorem session_terminated_implies_closed_witness :
    (runSession none [InEvent.disconnect]).terminated = true ∧
    (runSession none [InEvent.disconnect]).closedHandle = true :=
  ⟨rfl, session_terminated_implies_closed none [InEvent.disconnect] rfl⟩

/-! ## GenerationGateway: `llasa_model.py` -/

/-- Outcome of the body of the `try` block in `generate_audio` — everything
from reading the reference file with `sf.read` through `model.generate` and
the final return.  A failure (missing or malformed reference file, processor
or model exception) carries its message.  The floating-point pipeline is the
external model, so its successful result is the datum, already scaled to
int16 samples. -/
inductive TryOutcome
  | ok (samples : List Int) (rate : Nat)
  | fail (reason : String)
  deriving DecidableEq

/-- `get_model()`: lazily loads the Llasa-3B model and processor.  `loadOk`
says whether the two `from_pretrained` calls succeed; on failure the
exception propagates, as `get_model` contains no handler. -/
def get_model (loadOk : Bool) : Except String Unit :=
  if loadOk then Except.ok () else Except.error "model load failed"

/-- `generate_audio(text, reference_audio_path)`.  The source calls
`get_model()` before entering its `try` block, so a model-load exception
escapes to the caller; failures inside the `try` body are caught by the
`except` clause, which returns the sentinel pair of an empty array and the
default rate 16000. -/
def generate_audio (loadOk : Bool) (body : TryOutcome) :
    Except String (List Int × Nat) :=
  match get_model loadOk with
  | Except.error e => Except.error e
  | Except.ok _ =>
    match body with
    | TryOutcome.ok s r => Except.ok (s, r)
    | TryOutcome.fail _ => Except.ok ([], 16000)

/-- Counterexample to C3 as stated: when obtaining the model handle fails,
the exception propagates out of `generate_audio` to the caller instead of
the sentinel result being returned, because `get_model()` is invoked outside
the `try` block. -/
theorem generate_audio_propagates_load_failure :
    generate_audio false (TryOutcome.fail "missing reference file") =
      Except.error "model load failed" := rfl

/-- C3 (amended): failures inside the generation body (missing or malformed
reference-audio file, model exception) never propagate: once the model
handle is obtained, `generate_audio` always returns normally, with the
sentinel (empty samples, rate 16000) on a body failure; but a failure while
obtaining the model handle itself does propagate as an exception. -/
theorem generate_audio_try_scope (s : List Int) (r : Nat) (reason : String) :
    generate_audio true (TryOutcome.ok s r) = Except.ok (s, r) ∧
    generate_audio true (TryOutcome.fail reason) = Except.ok ([], 16000) ∧
    generate_audio false (TryOutcome.ok s r) = Except.error "model load failed" ∧
    generate_audio false (TryOutcome.fail reason) =
      Except.error "model load failed" :=
  ⟨rfl, rfl, rfl, rfl⟩

/-! ## Upload endpoint and the reference-voice binding -/

/-- The startswith test of Python, as a computation on character lists. -/
def strStartsWith (s pre : String) : Bool := pre.data.isPrefixOf s.data

/-- POSIX `os.path.join(dir, fname)`: a second component that is an absolute
path discards the first; otherwise the components are joined with a
separator. -/
def pathJoin (dir fname : String) : String :=
  if strStartsWith fname "/" then fname else dir ++ "/" ++ fname

/-- The process-wide mutable state of `inference_server.py`: the
`current_reference_audio` global, `none` until the first successful
upload. -/
structure ServerState where
  currentReferenceAudio : Option String
  deriving DecidableEq

/-- One multipart upload as `upload_reference_audio` sees it: the
client-supplied original filename, whether `await file.read()` succeeds,
whether opening and writing the destination file succeeds, and the text of
the exception when one is raised. -/
structure UploadIn where
  filename : String
  readOk : Bool
  writeOk : Bool
  errText : String
  deriving DecidableEq

/-- The structured JSON body `upload_reference_audio` answers with. -/
structure UploadResponse where
  message : String
  status : String
  deriving DecidableEq

/-- `upload_reference_audio`: compute the destination path with
`os.path.join`, read the request body, write the file, and only after the
write assign the global binding; any exception inside the `try` is answered
with a structured error response, leaving the binding untouched. -/
def upload_reference_audio (st : ServerState) (f : UploadIn) :
    UploadResponse × ServerState :=
  let file_path := pathJoin "prompts" f.filename
  if f.readOk then
    if f.writeOk then
      (⟨"File \x27" ++ f.filename ++ "\x27 uploaded successfully.", "success"⟩,
       ⟨some file_path⟩)
    else (⟨"Error uploading file: " ++ f.errText, "error"⟩, st)
  else (⟨"Error uploading file: " ++ f.errText, "error"⟩, st)

/-- C8 (evaluation at the failing input): an upload whose client-supplied
filename is the absolute path /evil.wav succeeds, yet `os.path.join`
discards the prompts component: the binding becomes /evil.wav, which is not
a path under the prompts directory — against the claim and the handler
docstring, which says the file is saved in the prompts directory. -/
theorem upload_absolute_filename_escapes_prompts :
    (upload_reference_audio ⟨none⟩ ⟨"/evil.wav", true, true, ""⟩).1.status =
      "success" ∧
    (upload_reference_audio ⟨none⟩
        ⟨"/evil.wav", true, true, ""⟩).2.currentReferenceAudio =
      some "/evil.wav" ∧
    strStartsWith "/evil.wav" "prompts" = false := by
  refine ⟨rfl, ?_, by decide⟩
  simp [upload_reference_audio, pathJoin]
  decide

/-- For a relative filename the upload does behave as claim C8 states: the
binding becomes the path under the prompts directory, and a generation
request processed with the post-upload state passes exactly that path to
`generate_audio` (last-write-wins: the result is independent of the prior
state). -/
theorem upload_relative_then_request_uses_path (st : ServerState)
    (f : UploadIn) (req : Request) (t : String) (g : GenResult)
    (hro : f.readOk = true) (hwo : f.writeOk = true)
    (habs : strStartsWith f.filename "/" = false)
    (ht : req.text = some t) (hne : t ≠ "") :
    (upload_reference_audio st f).2.currentReferenceAudio =
      some ("prompts/" ++ f.filename) ∧
    (sessionStep (upload_reference_audio st f).2.currentReferenceAudio req
        (GenOutcome.ok g)).genPath = some ("prompts/" ++ f.filename) := by
  have hbind : (upload_reference_audio st f).2.currentReferenceAudio =
      some ("prompts/" ++ f.filename) := by
    simp [upload_reference_audio, pathJoin, hro, hwo, habs]
  refine ⟨hbind, ?_⟩
  rw [hbind]
  by_cases hse : g.samples = [] <;> simp [sessionStep, ht, hne, hse]

/-- C10: the upload is atomic with respect to the binding: if reading the
request body or writing the file raises, the handler answers a structured
error response and the binding keeps its prior value — it is assigned only
after the content has been fully written. -/
theorem upload_failure_keeps_binding (st : ServerState) (f : UploadIn)
    (h : f.readOk = false ∨ f.writeOk = false) :
    (upload_reference_audio st f).1.status = "error" ∧
    (upload_reference_audio st f).2 = st := by
  rcases h with h | h
  · simp [upload_reference_audio, h]
  · cases hr : f.readOk <;> simp [upload_reference_audio, h, hr]

/-- Witness for C10: a failed body read leaves the previous binding and
reports an error status. -/
theorem upload_failure_keeps_binding_witness :
    (upload_reference_audio ⟨some "prompts/old.wav"⟩
        ⟨"new.wav", false, true, "disk full"⟩).1.status = "error" ∧
    (upload_reference_audio ⟨some "prompts/old.wav"⟩
        ⟨"new.wav", false, true, "disk full"⟩).2 =
      ⟨some "prompts/old.wav"⟩ :=
  upload_failure_keeps_binding ⟨some "prompts/old.wav"⟩
    ⟨"new.wav", false, true, "disk full"⟩ (Or.inl rfl)

/-! ## SessionClient: `audio_listener` in `inference_client_webrtc.py` -/

/-- What the client does with one received message. -/
inductive ClientAction
  | play (samples : List Int) (sampleRate : Nat)
  | surfaceError (msg : String)
  | listenerFault
  | ignore
  deriving DecidableEq

/-- Dispatch of one received message inside the receive loop of
`audio_listener`: a message starting with the audio tag is base64-decoded,
reinterpreted as int16 and handed to the playback sink at the hard-coded
16000 Hz; a raising decode lands in the generic exception handler of the
loop (`listenerFault`); any other message — including the JSON error object
the server sends — falls through the single `if` with no else branch and is
dropped (`ignore`).  `surfaceError` is the action claim C9 expects for an
`ErrorFrame`; no branch of the source produces it. -/
def clientHandleMessage (msg : String) : ClientAction :=
  if audioTag.data.isPrefixOf msg.data then
    match (b64DecodeChars (b64Payload msg.data)).bind bytesToInt16 with
    | some samples => ClientAction.play samples 16000
    | none => ClientAction.listenerFault
  else ClientAction.ignore

/-- The wire text produced by the server for an `ErrorFrame`: the JSON
serialization that `send_json` performs on the error object. -/
def errorFrameWire (m : String) : String :=
  "\x7b\x22error\x22: \x22" ++ (m ++ "\x22\x7d")

theorem errorFrameWire_not_audio (m : String) :
    audioTag.data.isPrefixOf (errorFrameWire m).data = false := by
  have hd : (errorFrameWire m).data =
      '\x7b' :: ("\x22error\x22: \x22".data ++ (m ++ "\x22\x7d").data) := rfl
  have ht : audioTag.data = 'd' :: "ata:audio/raw;base64,".data := rfl
  rw [hd, ht, List.isPrefixOf_cons₂]
  simp

/-- Counterexample to C9 as stated: the receive loop does not surface
`ErrorFrame` messages to any error callback — the no-reference-voice error
arriving as a JSON error object is silently dropped. -/
theorem client_ignores_errorFrame :
    clientHandleMessage (errorFrameWire noReferenceMsg) = ClientAction.ignore ∧
    clientHandleMessage (errorFrameWire noReferenceMsg) ≠
      ClientAction.surfaceError noReferenceMsg := by
  have h := errorFrameWire_not_audio noReferenceMsg
  constructor
  · simp [clientHandleMessage, h]
  · simp [clientHandleMessage, h]

/-- C9 (amended): the receive loop forwards decoded audio to the playback
sink whenever the message is an audio envelope — playing back exactly the
samples that were encoded, at the fixed 16000 Hz — while every `ErrorFrame`
message is silently ignored: no error callback is invoked anywhere in the
loop. -/
theorem client_dispatch_amended (s : List Int) (r : Nat) (m : String)
    (hs : ∀ v ∈ s, -32768 ≤ v ∧ v ≤ 32767) :
    clientHandleMessage (encode s r) = ClientAction.play s 16000 ∧
    clientHandleMessage (errorFrameWire m) = ClientAction.ignore := by
  constructor
  · have hpre : audioTag.data.isPrefixOf (encode s r).data = true := by
      simp [encode, String.data_append, List.isPrefixOf_iff_prefix,
        List.prefix_append]
    have hdec : (b64DecodeChars (b64Payload (encode s r).data)).bind bytesToInt16 =
        some s := by
      have hsame : (encode s r).data = (encode s 16000).data := rfl
      rw [hsame, b64Payload_encode, b64_roundtrip _ (samplesToBytes_lt_256 s),
        Option.some_bind', bytesToInt16_samplesToBytes s hs]
    simp [clientHandleMessage, hpre, hdec]
  · simp [clientHandleMessage, errorFrameWire_not_audio m]

/-- Witness for the amended C9 at the samples `[100, -100, 200]` and the
no-reference-voice error message. -/
theorem client_dispatch_amended_witness :
    clientHandleMessage (encode [100, -100, 200] 16000) =
      ClientAction.play [100, -100, 200] 16000 ∧
    clientHandleMessage (errorFrameWire noReferenceMsg) = ClientAction.ignore :=
  client_dispatch_amended [100, -100, 200] 16000 noReferenceMsg (by decide)
